import Mathlib

/-!
# Verification of the conversation-state controller of `src/app.py`

This file is a shallow embedding of the `ConversationManager` class of
`src/app.py` (the conversation-state controller of the chat application),
together with proofs of the testable properties stated in `spec.md`.

Modelling conventions:
* A Python message dict `{"role": r, "content": c}` becomes the structure
  `Message`.
* `tiktoken` is external; a tokenizer is a parameter `tok : String → Nat`
  giving the token count of a string, and the encoding registry
  `tiktoken.encoding_for_model` is a parameter
  `encFor : String → Option (String → List Nat)`.
* The history file is modelled by `FileState`: `none` is an absent file
  (Python `FileNotFoundError`), `some (Except.error s)` is a file whose text
  `s` is not valid structured data (Python `json.JSONDecodeError`), and
  `some (Except.ok j)` is a file holding the parsed document `j` of the
  small JSON AST `Json`.
* The remote completion endpoint is a parameter
  `complete : List Message → Except String String`: it receives the
  conversation context and either returns the assistant text or fails with
  an error message, exactly the two outcomes the `try`/`except` of
  `chat_completion` distinguishes.
* Methods that mutate `self` in Python become pure functions from the old
  state to the new state; methods that `raise` return `Except`.
-/

/-- One entry of `conversation_history`: a `{"role": ..., "content": ...}`
dict of `src/app.py`. -/
structure Message where
  role : String
  content : String
deriving DecidableEq, Repr

/-- `ConversationManager.count_tokens` (src/app.py lines 94-102): look up the
encoding for `default_model`; on `KeyError` fall back to the
`"gpt-3.5-turbo"` encoding; return the length of the encoded text.  The
result is `none` only when even the fallback encoding is absent from the
registry (in which case the Python code would propagate the `KeyError`). -/
def count_tokens (encFor : String → Option (String → List Nat))
    (default_model : String) (text : String) : Option Nat :=
  match encFor default_model with
  | some encoding => some (encoding text).length
  | none => (encFor "gpt-3.5-turbo").map (fun encoding => (encoding text).length)

/-- `ConversationManager.total_tokens_used` (src/app.py lines 104-109): the
sum of the token counts of the contents of all messages in the history.
The tokenizer `tok` abstracts a successful `count_tokens` call. -/
def total_tokens_used (tok : String → Nat) (conversation_history : List Message) : Nat :=
  (conversation_history.map (fun message => tok message.content)).sum

/-- The loop body of `ConversationManager.enforce_token_budget`
(src/app.py lines 111-118), written with explicit fuel: while the total
token count exceeds the budget, stop if at most one message remains,
otherwise remove the message at index 1 and recompute.  A fuel of
`log.length` is enough, since every iteration shortens the log by one. -/
def enforceTokenBudgetAux (tok : String → Nat) (token_budget : Nat) :
    Nat → List Message → List Message
  | 0, log => log
  | fuel + 1, log =>
    if token_budget < total_tokens_used tok log then
      if log.length ≤ 1 then log
      else enforceTokenBudgetAux tok token_budget fuel (log.eraseIdx 1)
    else log

/-- `ConversationManager.enforce_token_budget` (src/app.py lines 111-118). -/
def enforce_token_budget (tok : String → Nat) (token_budget : Nat)
    (conversation_history : List Message) : List Message :=
  enforceTokenBudgetAux tok token_budget conversation_history.length conversation_history

/-- The invariant of spec.md §3: at most one message has role `system`, and
if present it occupies index 0.  Stated as: no message after the head has
role `"system"`. -/
def SysInv : List Message → Prop
  | [] => True
  | _ :: rest => ∀ m ∈ rest, m.role ≠ "system"

instance : DecidablePred SysInv := by
  intro log
  cases log with
  | nil => exact isTrue trivial
  | cons m rest => exact List.decidableBAll _ rest

/-- `ConversationManager.update_system_message_in_history`
(src/app.py lines 133-140): if the history is nonempty and its first
message has role `system`, overwrite that message's content with the
current system message; otherwise insert a fresh system message at
index 0. -/
def update_system_message_in_history (system_message : String) :
    List Message → List Message
  | [] => [⟨"system", system_message⟩]
  | m :: rest =>
    if m.role = "system" then { m with content := system_message } :: rest
    else ⟨"system", system_message⟩ :: m :: rest

/-- The persona-relevant state of a `ConversationManager`:
`system_messages` (the persona registry, a dict modelled as an association
list with unique keys), `system_message` (the current persona text) and
`conversation_history`. -/
structure MgrState where
  system_messages : List (String × String)
  system_message : String
  conversation_history : List Message
deriving DecidableEq, Repr

/-- The `system_messages` dict built in `ConversationManager.__init__`
(src/app.py lines 81-89). -/
def initial_system_messages : List (String × String) :=
  [("default_assistant", "You are a helpful assistant."),
   ("sassy_assistant", "You are a sassy assistant that is fed up with answering questions."),
   ("angry_assistant", "You are an angry assistant that likes yelling in all caps."),
   ("thoughtful_assistant", "You are a thoughtful assistant, always ready to dig deeper.\n            You ask clarifying questions to ensure understanding and approach problems with a step-by-step methodology.\n            "),
   ("custom", "Enter your custom system message here.")]

/-- `ConversationManager.set_persona` (src/app.py lines 120-125): if the
persona key is in `system_messages`, set `system_message` to its text and
update the history; otherwise raise `ValueError`. -/
def set_persona (st : MgrState) (persona : String) : Except String MgrState :=
  match st.system_messages.lookup persona with
  | some msg =>
    Except.ok { st with
      system_message := msg,
      conversation_history := update_system_message_in_history msg st.conversation_history }
  | none => Except.error ("Unknown persona: " ++ persona)

/-- Python dict assignment `self.system_messages['custom'] = custom_message`
on the association-list model: replace the first `"custom"` entry, or append
one if the key is absent (in `src/app.py` the key is always present). -/
def setCustomSlot : List (String × String) → String → List (String × String)
  | [], custom_message => [("custom", custom_message)]
  | kv :: rest, custom_message =>
    if kv.1 = "custom" then ("custom", custom_message) :: rest
    else kv :: setCustomSlot rest custom_message

/-- `ConversationManager.set_custom_system_message` (src/app.py lines
127-131): raise `ValueError` when `not custom_message` (for a string this
is true exactly when it is empty), otherwise store the text in the
`"custom"` slot and switch to the `"custom"` persona. -/
def set_custom_system_message (st : MgrState) (custom_message : String) :
    Except String MgrState :=
  if custom_message = "" then Except.error "Custom message cannot be empty."
  else set_persona
    { st with system_messages := setCustomSlot st.system_messages custom_message }
    "custom"

/-- A small JSON AST: the structured documents `json.dump` writes and
`json.load` reads for the history file. -/
inductive Json where
  | str : String → Json
  | num : Int → Json
  | arr : List Json → Json
  | obj : List (String × Json) → Json

/-- The JSON document `json.dump` produces for one history message: an
object with `role` and `content` string fields. -/
def encodeMessage (m : Message) : Json :=
  Json.obj [("role", Json.str m.role), ("content", Json.str m.content)]

/-- The JSON document `json.dump` produces for the whole
`conversation_history` (src/app.py line 193): an array of message
objects. -/
def encodeLog (log : List Message) : Json :=
  Json.arr (log.map encodeMessage)

/-- Read one history message back from its JSON document.  `none` when the
document is not an object carrying `role` and `content` strings (Python's
`json.load` would hand such a document to the dynamically-typed history
unchecked; `none` marks the states outside the typed model). -/
def decodeMessage : Json → Option Message
  | Json.obj fields =>
    match fields.lookup "role", fields.lookup "content" with
    | some (Json.str r), some (Json.str c) => some ⟨r, c⟩
    | _, _ => none
  | _ => none

/-- Read a conversation log back from its JSON document. -/
def decodeLog : Json → Option (List Message)
  | Json.arr items => items.mapM decodeMessage
  | _ => none

/-- The state of the history file: `none` when the file is absent
(`FileNotFoundError`), `some (Except.error s)` when its text `s` is not
valid JSON (`json.JSONDecodeError`), `some (Except.ok j)` when it parses to
the document `j`. -/
abbrev FileState := Option (Except String Json)

/-- `ConversationManager.load_conversation_history` (src/app.py lines
180-188): on `FileNotFoundError` or `json.JSONDecodeError`, start with a
single system message; otherwise take the parsed document as the history.
The result is `none` only when the file holds valid JSON that is not an
array of `role`/`content` objects, the case in which the Python code would
keep the raw document in its dynamically-typed history. -/
def load_conversation_history (file : FileState) (system_message : String) :
    Option (List Message) :=
  match file with
  | none => some [⟨"system", system_message⟩]
  | some (Except.error _) => some [⟨"system", system_message⟩]
  | some (Except.ok j) => decodeLog j

/-- `ConversationManager.save_conversation_history` (src/app.py lines
190-197): `json.dump` the history into the file. -/
def save_conversation_history (conversation_history : List Message) : FileState :=
  some (Except.ok (encodeLog conversation_history))

/-- `ConversationManager.reset_conversation_history` (src/app.py lines
199-204): replace the history with a single system message and save it. -/
def reset_conversation_history (system_message : String) :
    List Message × FileState :=
  ([⟨"system", system_message⟩],
   save_conversation_history [⟨"system", system_message⟩])

/-- The `st.error` text displayed by the `except` branch of
`chat_completion` (src/app.py lines 166-173): an authentication-specific
message when the provider's error text contains `"Incorrect API key"`,
otherwise a generic one.  `splitOn` yields more than one piece exactly when
the pattern occurs in the text. -/
def completionErrorDisplay (error_message : String) : String :=
  if 1 < (error_message.splitOn "Incorrect API key").length then
    "Failed to authenticate: Incorrect API key provided. Please check your API key and try again."
  else "An error occurred: " ++ error_message

/-- Everything observable about one `chat_completion` call: the history and
file afterwards, the context handed to the completion endpoint, the value
returned to the caller (`none` models Python's `return None`), and the
`st.error` text, if any, shown in the interface. -/
structure ChatOutcome where
  conversation_history : List Message
  file : FileState
  sentContext : List Message
  result : Option String
  displayed : Option String

/-- `ConversationManager.chat_completion` (src/app.py lines 142-177):
append the user message, enforce the token budget, call the completion
endpoint with the resulting history; on success append the assistant
message, save, and return the assistant text; on any exception display an
error, log it, and return `None` — the exception is not re-raised. -/
def chat_completion (tok : String → Nat) (token_budget : Nat)
    (complete : List Message → Except String String)
    (conversation_history : List Message) (file : FileState)
    (prompt : String) : ChatOutcome :=
  let appended := conversation_history ++ [⟨"user", prompt⟩]
  let enforced := enforce_token_budget tok token_budget appended
  match complete enforced with
  | Except.ok ai_response =>
    { conversation_history := enforced ++ [⟨"assistant", ai_response⟩],
      file := save_conversation_history (enforced ++ [⟨"assistant", ai_response⟩]),
      sentContext := enforced,
      result := some ai_response,
      displayed := none }
  | Except.error error_message =>
    { conversation_history := enforced,
      file := file,
      sentContext := enforced,
      result := none,
      displayed := some (completionErrorDisplay error_message) }

/-- Modelled from the spec: the Rate Limiter component (spec.md §4.6) is
described by the spec but absent from `src/app.py`, so it is modelled from
the spec's words: `admitRequest(window, now, limit, period)` prunes entries with
`timestamp < now - period`; if the remaining count is at least `limit` it
returns not-allowed without mutating the window further; otherwise it
appends `now` and returns allowed. -/
def admitRequest (window : List Int) (now : Int) (limit : Nat) (period : Int) :
    Bool × List Int :=
  let pruned := window.filter (fun ts => now - period ≤ ts)
  if limit ≤ pruned.length then (false, pruned)
  else (true, pruned ++ [now])

/-- The manager state right after `ConversationManager.__init__` with an
absent history file: the default registry, the `sassy_assistant` persona
(src/app.py line 90) and the seeded single-system-message history. -/
def init_state : MgrState :=
  { system_messages := initial_system_messages,
    system_message := "You are a sassy assistant that is fed up with answering questions.",
    conversation_history :=
      [⟨"system", "You are a sassy assistant that is fed up with answering questions."⟩] }

/-! ## Helper lemmas -/

/-- Postcondition of the budget-enforcement loop, by induction on the fuel:
the final history is within budget or has at most one message, and it is
the first message followed by a suffix of the original tail (each loop
iteration removed the message at index 1). -/
theorem enforceTokenBudgetAux_spec (tok : String → Nat) (B : Nat) :
    ∀ (fuel : Nat) (log : List Message), log.length ≤ fuel →
      (total_tokens_used tok (enforceTokenBudgetAux tok B fuel log) ≤ B ∨
        (enforceTokenBudgetAux tok B fuel log).length ≤ 1) ∧
      ∃ k, enforceTokenBudgetAux tok B fuel log = log.take 1 ++ log.tail.drop k := by
  intro fuel
  induction fuel with
  | zero =>
    intro log hlen
    have hnil : log = [] := List.eq_nil_of_length_eq_zero (Nat.le_zero.mp hlen)
    subst hnil
    exact ⟨Or.inr (by simp [enforceTokenBudgetAux]), 0, by simp [enforceTokenBudgetAux]⟩
  | succ n ih =>
    intro log hlen
    by_cases hb : B < total_tokens_used tok log
    · by_cases h1 : log.length ≤ 1
      · refine ⟨Or.inr (by simp [enforceTokenBudgetAux, hb, h1]), 0, ?_⟩
        simp only [enforceTokenBudgetAux, if_pos hb, if_pos h1]
        cases log <;> simp
      · cases log with
        | nil => simp at h1
        | cons a rest =>
          cases rest with
          | nil => simp at h1
          | cons b rest' =>
            have herase : (a :: b :: rest').eraseIdx 1 = a :: rest' := rfl
            have hlen' : (a :: rest').length ≤ n := by
              simp only [List.length_cons] at hlen ⊢
              omega
            obtain ⟨hpost, k, hk⟩ := ih (a :: rest') hlen'
            have hstep : enforceTokenBudgetAux tok B (n + 1) (a :: b :: rest') =
                enforceTokenBudgetAux tok B n (a :: rest') := by
              simp [enforceTokenBudgetAux, if_pos hb, if_neg h1, herase]
            rw [hstep]
            refine ⟨hpost, k + 1, ?_⟩
            rw [hk]
            simp
    · refine ⟨Or.inl (by simp [enforceTokenBudgetAux, hb]; omega), 0, ?_⟩
      simp only [enforceTokenBudgetAux, if_neg hb]
      cases log <;> simp

/-- When the history is already within budget, enforcement leaves it
unchanged. -/
theorem enforce_token_budget_of_le (tok : String → Nat) (B : Nat)
    (log : List Message) (h : total_tokens_used tok log ≤ B) :
    enforce_token_budget tok B log = log := by
  cases log with
  | nil => rfl
  | cons a rest =>
    show enforceTokenBudgetAux tok B (rest.length + 1) (a :: rest) = a :: rest
    simp [enforceTokenBudgetAux, Nat.not_lt.mpr h]

/-- The system-message invariant survives keeping the first message and an
arbitrary tail suffix, the shape budget enforcement produces. -/
theorem sysInv_take_drop (log : List Message) (k : Nat) (h : SysInv log) :
    SysInv (log.take 1 ++ log.tail.drop k) := by
  cases log with
  | nil => simp [SysInv]
  | cons a rest =>
    simp only [SysInv] at h
    simp only [List.take_succ_cons, List.take_zero, List.tail_cons, List.singleton_append,
      SysInv]
    intro m hm
    exact h m (List.mem_of_mem_drop hm)

/-- Appending a non-system message preserves the system-message
invariant. -/
theorem sysInv_append (log : List Message) (m : Message)
    (hrole : m.role ≠ "system") (h : SysInv log) : SysInv (log ++ [m]) := by
  cases log with
  | nil => simp [SysInv]
  | cons a rest =>
    simp only [SysInv, List.cons_append] at h ⊢
    intro x hx
    rcases List.mem_append.mp hx with hx | hx
    · exact h x hx
    · rw [List.mem_singleton.mp hx]; exact hrole

/-- `update_system_message_in_history` preserves the system-message
invariant. -/
theorem sysInv_update (s : String) (log : List Message) (h : SysInv log) :
    SysInv (update_system_message_in_history s log) := by
  cases log with
  | nil => simp [update_system_message_in_history, SysInv]
  | cons a rest =>
    simp only [SysInv] at h
    by_cases hr : a.role = "system"
    · simp only [update_system_message_in_history, if_pos hr, SysInv]
      exact h
    · simp only [update_system_message_in_history, if_neg hr, SysInv]
      intro m hm
      rcases List.mem_cons.mp hm with hm | hm
      · rw [hm]; exact hr
      · exact h m hm

/-! ## Claim theorems -/

/-- C1: for every token budget `B` and every conversation log whose total
token count exceeds `B` and whose length exceeds 1, `enforce_token_budget`
(which terminates, being a total function) leaves the log either with
total token count at most `B` or with length exactly 1; the message at
index 0 is never removed (the head is preserved), and each removal takes
the message at index 1 (the result is the head followed by a suffix of the
original tail). -/
theorem enforce_token_budget_spec (tok : String → Nat) (B : Nat)
    (log : List Message)
    (htot : B < total_tokens_used tok log) (hlen : 1 < log.length) :
    (total_tokens_used tok (enforce_token_budget tok B log) ≤ B ∨
      (enforce_token_budget tok B log).length = 1) ∧
    (enforce_token_budget tok B log).head? = log.head? ∧
    ∃ k, enforce_token_budget tok B log = log.take 1 ++ log.tail.drop k := by
  have he : enforce_token_budget tok B log =
      enforceTokenBudgetAux tok B log.length log := rfl
  obtain ⟨hpost, k, hk⟩ :=
    enforceTokenBudgetAux_spec tok B log.length log (le_refl _)
  rw [← he] at hpost hk
  cases log with
  | nil => simp at hlen
  | cons a rest =>
    simp only [List.take_succ_cons, List.take_zero, List.tail_cons,
      List.singleton_append] at hk
    refine ⟨?_, ?_, ?_⟩
    · rcases hpost with h | h
      · exact Or.inl h
      · right
        rw [hk] at h ⊢
        simp at h ⊢
        omega
    · rw [hk]
      simp
    · exact ⟨k, by rw [hk]; simp⟩

/-- Witness for C1 at a concrete tokenizer, budget and log. -/
theorem enforce_token_budget_spec_witness :
    (3 : Nat) < total_tokens_used String.length
      [⟨"system", "sy"⟩, ⟨"user", "abc"⟩, ⟨"user", "defgh"⟩] ∧
    1 < ([⟨"system", "sy"⟩, ⟨"user", "abc"⟩, ⟨"user", "defgh"⟩] : List Message).length ∧
    ((total_tokens_used String.length (enforce_token_budget String.length 3
        [⟨"system", "sy"⟩, ⟨"user", "abc"⟩, ⟨"user", "defgh"⟩]) ≤ 3 ∨
      (enforce_token_budget String.length 3
        [⟨"system", "sy"⟩, ⟨"user", "abc"⟩, ⟨"user", "defgh"⟩]).length = 1) ∧
    (enforce_token_budget String.length 3
        [⟨"system", "sy"⟩, ⟨"user", "abc"⟩, ⟨"user", "defgh"⟩]).head? =
      ([⟨"system", "sy"⟩, ⟨"user", "abc"⟩, ⟨"user", "defgh"⟩] : List Message).head? ∧
    ∃ k, enforce_token_budget String.length 3
        [⟨"system", "sy"⟩, ⟨"user", "abc"⟩, ⟨"user", "defgh"⟩] =
      ([⟨"system", "sy"⟩, ⟨"user", "abc"⟩, ⟨"user", "defgh"⟩] : List Message).take 1 ++
        ([⟨"system", "sy"⟩, ⟨"user", "abc"⟩, ⟨"user", "defgh"⟩] : List Message).tail.drop k) :=
  ⟨by decide, by decide,
    enforce_token_budget_spec String.length 3
      [⟨"system", "sy"⟩, ⟨"user", "abc"⟩, ⟨"user", "defgh"⟩]
      (by decide) (by decide)⟩

/-- Characterization of a successful `set_persona` call: the key resolved
to a persona text, the current system message became that text, and the
history went through `update_system_message_in_history`. -/
theorem set_persona_ok (st : MgrState) (key : String) (st2 : MgrState)
    (h : set_persona st key = Except.ok st2) :
    ∃ msg, st.system_messages.lookup key = some msg ∧
      st2 = { st with
        system_message := msg,
        conversation_history :=
          update_system_message_in_history msg st.conversation_history } := by
  unfold set_persona at h
  cases hl : st.system_messages.lookup key with
  | none => rw [hl] at h; exact absurd h (by simp)
  | some msg =>
    rw [hl] at h
    injection h with h
    exact ⟨msg, rfl, h.symm⟩

/-- Budget enforcement preserves the system-message invariant. -/
theorem sysInv_enforce (tok : String → Nat) (B : Nat) (log : List Message)
    (h : SysInv log) : SysInv (enforce_token_budget tok B log) := by
  obtain ⟨-, k, hk⟩ := enforceTokenBudgetAux_spec tok B log.length log (le_refl _)
  have he : enforce_token_budget tok B log =
      enforceTokenBudgetAux tok B log.length log := rfl
  rw [he, hk]
  exact sysInv_take_drop log k h

/-- C2 counterexample: against a failing completion adapter,
`chat_completion` does not raise to its caller; it returns `None` (the
exception is swallowed by the `except` branch, which only displays an
`st.error` message), so the claim that a `CompletionError` is raised to
the caller is false of the code. -/
theorem chat_completion_failure_cex :
    (chat_completion String.length 1000 (fun _ => Except.error "boom")
      [⟨"system", "sys"⟩] (none : FileState) "hello").result = none ∧
    (chat_completion String.length 1000 (fun _ => Except.error "boom")
      [⟨"system", "sys"⟩] (none : FileState) "hello").displayed =
      some (completionErrorDisplay "boom") := by
  exact ⟨rfl, rfl⟩

/-- C2 (amended): when the completion call fails, `chat_completion`
catches the exception, displays an error message (an authentication-
specific one when the error text contains "Incorrect API key"), and
returns `None` to its caller instead of raising; provided the log with the
appended user message is within the token budget, the conversation log
afterwards ends with the user message containing the prompt, has no
trailing assistant message, and the history file is untouched. -/
theorem chat_completion_failure_amended (tok : String → Nat) (B : Nat)
    (complete : List Message → Except String String)
    (hist : List Message) (fs : FileState) (p err : String)
    (hbudget : total_tokens_used tok (hist ++ [⟨"user", p⟩]) ≤ B)
    (hfail : complete (hist ++ [⟨"user", p⟩]) = Except.error err) :
    (chat_completion tok B complete hist fs p).result = none ∧
    (chat_completion tok B complete hist fs p).conversation_history =
      hist ++ [⟨"user", p⟩] ∧
    (chat_completion tok B complete hist fs p).file = fs ∧
    (chat_completion tok B complete hist fs p).displayed =
      some (completionErrorDisplay err) := by
  have henf := enforce_token_budget_of_le tok B (hist ++ [⟨"user", p⟩]) hbudget
  simp [chat_completion, henf, hfail]

/-- Witness for C2's amended theorem at a concrete failing adapter. -/
theorem chat_completion_failure_amended_witness :
    total_tokens_used String.length
      ([⟨"system", "sys"⟩] ++ [⟨"user", "hello"⟩]) ≤ 1000 ∧
    (chat_completion String.length 1000 (fun _ => Except.error "err msg")
      [⟨"system", "sys"⟩] (none : FileState) "hello").conversation_history =
      [⟨"system", "sys"⟩] ++ [⟨"user", "hello"⟩] :=
  ⟨by decide,
    (chat_completion_failure_amended String.length 1000
      (fun _ => Except.error "err msg") [⟨"system", "sys"⟩] (none : FileState)
      "hello" "err msg" (by decide) rfl).2.1⟩

/-- C3: every controller operation preserves the invariant that the
conversation log has at most one message with role `system`, occupying
index 0 when present: loading (provided the decoded file log satisfies the
invariant; the seeded single-system-message logs of the absent/corrupt
cases always do), `set_persona`, `set_custom_system_message`,
`chat_completion`, `enforce_token_budget`, and
`reset_conversation_history`. -/
theorem system_message_invariant_preserved
    (st : MgrState) (tok : String → Nat) (B : Nat)
    (complete : List Message → Except String String) (fs : FileState)
    (p key sys : String)
    (hinv : SysInv st.conversation_history)
    (hfile : ∀ j L, fs = some (Except.ok j) → decodeLog j = some L → SysInv L) :
    (∀ L, load_conversation_history fs sys = some L → SysInv L) ∧
    (∀ st2, set_persona st key = Except.ok st2 →
      SysInv st2.conversation_history) ∧
    (∀ st2, set_custom_system_message st p = Except.ok st2 →
      SysInv st2.conversation_history) ∧
    SysInv (chat_completion tok B complete st.conversation_history fs p).conversation_history ∧
    SysInv (enforce_token_budget tok B st.conversation_history) ∧
    SysInv (reset_conversation_history sys).1 := by
  refine ⟨?_, ?_, ?_, ?_, ?_, ?_⟩
  · intro L hL
    match fs, hL with
    | none, hL =>
      simp only [load_conversation_history, Option.some.injEq] at hL
      rw [← hL]; simp [SysInv]
    | some (Except.error e), hL =>
      simp only [load_conversation_history, Option.some.injEq] at hL
      rw [← hL]; simp [SysInv]
    | some (Except.ok j), hL =>
      exact hfile j L rfl hL
  · intro st2 h
    obtain ⟨msg, -, hst2⟩ := set_persona_ok st key st2 h
    rw [hst2]
    exact sysInv_update msg st.conversation_history hinv
  · intro st2 h
    unfold set_custom_system_message at h
    by_cases hp : p = ""
    · rw [if_pos hp] at h; exact absurd h (by simp)
    · rw [if_neg hp] at h
      obtain ⟨msg, -, hst2⟩ := set_persona_ok _ "custom" st2 h
      rw [hst2]
      exact sysInv_update msg st.conversation_history hinv
  · have h1 : SysInv (st.conversation_history ++ [⟨"user", p⟩]) :=
      sysInv_append st.conversation_history ⟨"user", p⟩
        (by show ("user" : String) ≠ "system"; decide) hinv
    have h2 : SysInv (enforce_token_budget tok B
        (st.conversation_history ++ [⟨"user", p⟩])) :=
      sysInv_enforce tok B _ h1
    cases hc : complete (enforce_token_budget tok B
        (st.conversation_history ++ [⟨"user", p⟩])) with
    | ok ai =>
      simp only [chat_completion, hc]
      exact sysInv_append _ ⟨"assistant", ai⟩
        (by show ("assistant" : String) ≠ "system"; decide) h2
    | error e =>
      simp only [chat_completion, hc]
      exact h2
  · exact sysInv_enforce tok B st.conversation_history hinv
  · simp [reset_conversation_history, SysInv]

/-- Witness for C3 at the initial manager state and an absent file. -/
theorem system_message_invariant_preserved_witness :
    SysInv (chat_completion String.length 100 (fun _ => Except.ok "hi")
      init_state.conversation_history (none : FileState) "hey").conversation_history ∧
    SysInv (enforce_token_budget String.length 100
      init_state.conversation_history) ∧
    SysInv (reset_conversation_history "be brief").1 :=
  ⟨(system_message_invariant_preserved init_state String.length 100
      (fun _ => Except.ok "hi") (none : FileState) "hey" "custom" "be brief"
      (by decide) (by intro j L hj; exact absurd hj (by simp))).2.2.2.1,
   (system_message_invariant_preserved init_state String.length 100
      (fun _ => Except.ok "hi") (none : FileState) "hey" "custom" "be brief"
      (by decide) (by intro j L hj; exact absurd hj (by simp))).2.2.2.2.1,
   (system_message_invariant_preserved init_state String.length 100
      (fun _ => Except.ok "hi") (none : FileState) "hey" "custom" "be brief"
      (by decide) (by intro j L hj; exact absurd hj (by simp))).2.2.2.2.2⟩

/-- C10: there are a prompt and a budget for which, starting from a log
holding only the system message, the budget enforcement inside
`chat_completion` evicts the just-appended user message at index 1, so the
completion request is issued with a context that does not contain the
user's current prompt. -/
theorem budget_eviction_drops_prompt :
    (chat_completion String.length 5 (fun _ => Except.ok "reply")
      [⟨"system", "sys"⟩] (none : FileState) "helloworld").sentContext =
      [⟨"system", "sys"⟩] ∧
    (⟨"user", "helloworld"⟩ : Message) ∉
      (chat_completion String.length 5 (fun _ => Except.ok "reply")
        [⟨"system", "sys"⟩] (none : FileState) "helloworld").sentContext := by
  constructor
  · decide
  · decide

/-- After the dict assignment `system_messages['custom'] = t`, looking up
`"custom"` yields `t`. -/
theorem lookup_setCustomSlot (ps : List (String × String)) (t : String) :
    (setCustomSlot ps t).lookup "custom" = some t := by
  induction ps with
  | nil => simp [setCustomSlot, List.lookup]
  | cons kv rest ih =>
    obtain ⟨k, v⟩ := kv
    by_cases h : k = "custom"
    · subst h
      simp [setCustomSlot, List.lookup]
    · have hb : ("custom" == k) = false := by
        simp only [beq_eq_false_iff_ne, ne_eq]
        exact Ne.symm h
      simp only [setCustomSlot, if_neg h, List.lookup, hb]
      exact ih

/-- C4 counterexample: the whitespace-only custom message `" "` is not
rejected: `set_custom_system_message` succeeds on it (Python's
`not custom_message` is false for a nonempty string of blanks) and the
`"custom"` slot becomes the blank text, so the claim that blank input
raises `EmptyMessageError` is false of the code. -/
theorem set_custom_blank_not_rejected :
    (set_custom_system_message init_state " ").isOk = true ∧
    (set_custom_system_message init_state " ").toOption.map
      MgrState.system_message = some " " := by
  constructor
  · decide
  · decide

/-- C4 (amended): `set_custom_system_message t` raises exactly when `t` is
the empty string — the error is raised before any mutation, so returning
`Except.error` models the log and registry staying unchanged; for every
non-empty `t`, including whitespace-only ones, it does not raise, mutates
the `"custom"` slot to `t`, makes `t` the current system message and
updates the history. -/
theorem set_custom_system_message_spec (st : MgrState) (t : String) :
    (t = "" → set_custom_system_message st t =
      Except.error "Custom message cannot be empty.") ∧
    (t ≠ "" → ∃ st2, set_custom_system_message st t = Except.ok st2 ∧
      st2.system_messages.lookup "custom" = some t ∧
      st2.system_message = t ∧
      st2.conversation_history =
        update_system_message_in_history t st.conversation_history) := by
  constructor
  · intro h
    simp [set_custom_system_message, h]
  · intro h
    have hl := lookup_setCustomSlot st.system_messages t
    refine ⟨{ st with
        system_messages := setCustomSlot st.system_messages t,
        system_message := t,
        conversation_history :=
          update_system_message_in_history t st.conversation_history },
      ?_, hl, rfl, rfl⟩
    simp [set_custom_system_message, if_neg h, set_persona, hl]

/-- Witness for C4's amended theorem: the empty string is rejected, a
non-empty text is stored. -/
theorem set_custom_system_message_spec_witness :
    set_custom_system_message init_state "" =
      Except.error "Custom message cannot be empty." ∧
    ∃ st2, set_custom_system_message init_state "Be brief." = Except.ok st2 ∧
      st2.system_messages.lookup "custom" = some "Be brief." ∧
      st2.system_message = "Be brief." ∧
      st2.conversation_history =
        update_system_message_in_history "Be brief."
          init_state.conversation_history :=
  ⟨(set_custom_system_message_spec init_state "").1 rfl,
   (set_custom_system_message_spec init_state "Be brief.").2 (by decide)⟩

/-- C5: for an absent history file (`FileNotFoundError`) and for a file
whose text is not valid structured data (`json.JSONDecodeError`),
`load_conversation_history` returns the single-element log holding only
the current system message; both exceptions are caught inside the method,
so nothing is raised to its caller — the embedding returns a value in both
cases. -/
theorem load_failure_returns_singleton (sys : String) :
    load_conversation_history (none : FileState) sys =
      some [⟨"system", sys⟩] ∧
    ∀ s, load_conversation_history (some (Except.error s)) sys =
      some [⟨"system", sys⟩] :=
  ⟨rfl, fun _ => rfl⟩

/-- Decoding a message's JSON document recovers the message. -/
theorem decodeMessage_encodeMessage (m : Message) :
    decodeMessage (encodeMessage m) = some m := by
  simp [encodeMessage, decodeMessage, List.lookup]

/-- C6: saving a conversation log and loading it back yields the same log,
field for field: `json.dump` writes the array of `role`/`content` objects
and `json.load` parses the identical document (the model has no concurrent
writer). -/
theorem save_load_roundtrip (log : List Message) (sys : String) :
    load_conversation_history (save_conversation_history log) sys =
      some log := by
  simp only [save_conversation_history, load_conversation_history,
    decodeLog, encodeLog]
  induction log with
  | nil => rfl
  | cons m rest ih =>
    simp only [List.map_cons, List.mapM_cons, decodeMessage_encodeMessage,
      Option.pure_def, Option.bind_eq_bind, Option.some_bind, ih]

/-- C7: for a known persona key, `set_persona` succeeds and changes the
log length by at most one (unchanged when it replaces the system message
at index 0, one longer when it inserts one there), never removes any
non-system message, and leaves all messages other than the index-0 system
message unchanged (the tail of the new log is the old tail or the whole
old log). -/
theorem set_persona_frame (st : MgrState) (key msg : String)
    (hkey : st.system_messages.lookup key = some msg) :
    ∃ st2, set_persona st key = Except.ok st2 ∧
      (st2.conversation_history.length = st.conversation_history.length ∨
        st2.conversation_history.length = st.conversation_history.length + 1) ∧
      (∀ m ∈ st.conversation_history, m.role ≠ "system" →
        m ∈ st2.conversation_history) ∧
      (st2.conversation_history.tail = st.conversation_history.tail ∨
        st2.conversation_history.tail = st.conversation_history) := by
  refine ⟨{ st with
      system_message := msg,
      conversation_history :=
        update_system_message_in_history msg st.conversation_history },
    by simp [set_persona, hkey], ?_, ?_, ?_⟩
  · cases hlog : st.conversation_history with
    | nil => right; simp [update_system_message_in_history]
    | cons a rest =>
      by_cases hr : a.role = "system"
      · left; simp [update_system_message_in_history, if_pos hr]
      · right; simp [update_system_message_in_history, if_neg hr]
  · intro m hm hrole
    cases hlog : st.conversation_history with
    | nil => rw [hlog] at hm; simp at hm
    | cons a rest =>
      rw [hlog] at hm
      by_cases hr : a.role = "system"
      · simp only [update_system_message_in_history, if_pos hr]
        rcases List.mem_cons.mp hm with hm | hm
        · exact absurd (hm ▸ hr) hrole
        · exact List.mem_cons_of_mem _ hm
      · simp only [update_system_message_in_history, if_neg hr]
        exact List.mem_cons_of_mem _ (hlog ▸ hm)
  · cases hlog : st.conversation_history with
    | nil => left; simp [update_system_message_in_history]
    | cons a rest =>
      by_cases hr : a.role = "system"
      · left; simp [update_system_message_in_history, if_pos hr]
      · right; simp [update_system_message_in_history, if_neg hr]

/-- Witness for C7 at the initial state and the `angry_assistant` key. -/
theorem set_persona_frame_witness :
    init_state.system_messages.lookup "angry_assistant" =
      some "You are an angry assistant that likes yelling in all caps." ∧
    ∃ st2, set_persona init_state "angry_assistant" = Except.ok st2 ∧
      (st2.conversation_history.length =
          init_state.conversation_history.length ∨
        st2.conversation_history.length =
          init_state.conversation_history.length + 1) ∧
      (∀ m ∈ init_state.conversation_history, m.role ≠ "system" →
        m ∈ st2.conversation_history) ∧
      (st2.conversation_history.tail =
          init_state.conversation_history.tail ∨
        st2.conversation_history.tail = init_state.conversation_history) :=
  ⟨by decide,
   set_persona_frame init_state "angry_assistant"
     "You are an angry assistant that likes yelling in all caps." (by decide)⟩

/-- C9: `count_tokens` is a pure function of the text and the model name,
so two calls with the same `(text, modelName)` pair yield the same count;
moreover, when the model name has no known encoding, the count is the one
computed with the documented default `"gpt-3.5-turbo"` encoding. -/
theorem count_tokens_deterministic
    (encFor : String → Option (String → List Nat)) (model text : String) :
    count_tokens encFor model text = count_tokens encFor model text ∧
    (encFor model = none →
      count_tokens encFor model text =
        count_tokens encFor "gpt-3.5-turbo" text) := by
  refine ⟨rfl, fun h => ?_⟩
  simp only [count_tokens, h]
  cases hg : encFor "gpt-3.5-turbo" <;> simp [hg]

/-- Witness for C9 at a registry that only knows the default encoding. -/
theorem count_tokens_deterministic_witness :
    count_tokens
      (fun m => if m = "gpt-3.5-turbo" then some (fun t => t.data.map Char.toNat) else none)
      "gpt-4o" "hi" =
    count_tokens
      (fun m => if m = "gpt-3.5-turbo" then some (fun t => t.data.map Char.toNat) else none)
      "gpt-4o" "hi" ∧
    count_tokens
      (fun m => if m = "gpt-3.5-turbo" then some (fun t => t.data.map Char.toNat) else none)
      "gpt-4o" "hi" =
    count_tokens
      (fun m => if m = "gpt-3.5-turbo" then some (fun t => t.data.map Char.toNat) else none)
      "gpt-3.5-turbo" "hi" :=
  ⟨(count_tokens_deterministic
      (fun m => if m = "gpt-3.5-turbo" then some (fun t => t.data.map Char.toNat) else none)
      "gpt-4o" "hi").1,
   (count_tokens_deterministic
      (fun m => if m = "gpt-3.5-turbo" then some (fun t => t.data.map Char.toNat) else none)
      "gpt-4o" "hi").2 (by simp)⟩

/-- C8: with limit 3 and period 60, starting from an empty window, three
requests inside one rolling 60-second window are admitted (each appends
its timestamp), the 4th inside the same window is rejected with no further
mutation of the pruned window, and once the oldest admitted timestamp has
aged past 60 seconds admission resumes. -/
theorem rate_limit_window (t0 t1 t2 t3 t4 : Int)
    (h01 : t0 ≤ t1) (h12 : t1 ≤ t2) (h23 : t2 ≤ t3)
    (hin : t3 ≤ t0 + 60) (hout : t0 + 60 < t4) :
    admitRequest [] t0 3 60 = (true, [t0]) ∧
    admitRequest [t0] t1 3 60 = (true, [t0, t1]) ∧
    admitRequest [t0, t1] t2 3 60 = (true, [t0, t1, t2]) ∧
    admitRequest [t0, t1, t2] t3 3 60 = (false, [t0, t1, t2]) ∧
    (admitRequest [t0, t1, t2] t4 3 60).1 = true := by
  have b1 : t1 - 60 ≤ t0 := by omega
  have b2a : t2 - 60 ≤ t0 := by omega
  have b2b : t2 - 60 ≤ t1 := by omega
  have b3a : t3 - 60 ≤ t0 := by omega
  have b3b : t3 - 60 ≤ t1 := by omega
  have b3c : t3 - 60 ≤ t2 := by omega
  have b4 : ¬ (t4 - 60 ≤ t0) := by omega
  refine ⟨?_, ?_, ?_, ?_, ?_⟩
  · simp [admitRequest]
  · simp [admitRequest, List.filter, b1]
  · simp [admitRequest, List.filter, b2a, b2b]
  · simp [admitRequest, List.filter, b3a, b3b, b3c]
  · have hle : (List.filter (fun ts => decide (t4 - 60 ≤ ts)) [t1, t2]).length ≤ 2 := by
      have h := List.length_filter_le (fun ts => decide (t4 - 60 ≤ ts)) [t1, t2]
      simpa using h
    have hfil : List.filter (fun ts => decide (t4 - 60 ≤ ts)) [t0, t1, t2] =
        List.filter (fun ts => decide (t4 - 60 ≤ ts)) [t1, t2] := by
      simp [List.filter, b4]
    simp only [admitRequest]
    rw [hfil, if_neg (by omega)]

/-- Witness for C8 at concrete timestamps 0, 10, 20, 30 and 100. -/
theorem rate_limit_window_witness :
    admitRequest [] 0 3 60 = (true, [0]) ∧
    admitRequest [0] 10 3 60 = (true, [0, 10]) ∧
    admitRequest [0, 10] 20 3 60 = (true, [0, 10, 20]) ∧
    admitRequest [0, 10, 20] 30 3 60 = (false, [0, 10, 20]) ∧
    (admitRequest [0, 10, 20] 100 3 60).1 = true :=
  rate_limit_window 0 10 20 30 100 (by decide) (by decide) (by decide)
    (by decide) (by decide)
